import Mathlib

set_option maxRecDepth 4000
set_option maxHeartbeats 1000000

/-!
Verification of the sparse-Merkle proof core of the repository.

The verifier itself (`SparseMerkleProof::verify`, `src/types/src/proof/definition.rs`)
and the node hashing (`src/types/src/proof/mod.rs`,
`src/types/src/account_state_blob.rs`) are translated from the source.
`HashValue` and the hasher family live in `libra_crypto::hash`, which is not under
`src/`; those are modelled from the spec (sections 3, 4.1 and 4.2) and are marked
as such below.  The development is parametric in the underlying digest function.
-/

/-- Modelled from the spec: `HashValue` (from `libra_crypto::hash`, not under
`src/`) is an immutable 32-byte (256-bit) digest with MSB-first bit indexing:
bit 0 is the most significant bit of byte 0.  It is represented here by its
256-bit sequence in exactly that order. -/
structure HashValue where
  bits : List Bool
  len_eq : bits.length = 256

theorem HashValue.ext_bits {a b : HashValue} (h : a.bits = b.bits) : a = b := by
  cases a
  cases b
  simpa using h

instance : DecidableEq HashValue := fun a b =>
  decidable_of_iff (a.bits = b.bits) ⟨HashValue.ext_bits, fun h => by rw [h]⟩

/-- Modelled from the spec: `HashValue::LENGTH_IN_BITS = 256`. -/
def HashValue.LENGTH_IN_BITS : Nat := 256

/-- Modelled from the spec: `iter_bits()` produces the bits from index 0 (MSB)
to 255 (LSB). -/
def HashValue.iter_bits (a : HashValue) : List Bool := a.bits

/-- Modelled from the spec: `bit(i)` for `0 ≤ i < 256`, bit 0 being the most
significant bit of byte 0. -/
def HashValue.bit (a : HashValue) (i : Nat) : Bool := a.bits.getD i false

/-- Length of the common leading segment of two lists. -/
def commonPrefixLen : List Bool → List Bool → Nat
  | x :: xs, y :: ys => if x = y then commonPrefixLen xs ys + 1 else 0
  | _, _ => 0

/-- Modelled from the spec: `common_prefix_bits_len(other)` counts the leading
bits equal in both values, in the MSB-first ordering. -/
def HashValue.common_prefix_bits_len (a b : HashValue) : Nat :=
  commonPrefixLen a.bits b.bits

/-- Modelled from the spec: `SPARSE_MERKLE_PLACEHOLDER_HASH` is the all-zero
hash, the digest of an empty SMT subtree. -/
def SPARSE_MERKLE_PLACEHOLDER_HASH : HashValue :=
  ⟨List.replicate 256 false, by simp⟩

/-- Modelled from the spec: the domain-separation roles of the hasher family
used by the core (one role per structural context, section 4.2). -/
inductive HasherRole
  | sparseMerkleInternal
  | sparseMerkleLeafNode
  | accountStateBlob
deriving DecidableEq

/-- The underlying digest: maps a role (the domain-separation seed) and the
concatenated input to a `HashValue`.  The development is parametric in it, as
the spec assumes only collision resistance. -/
abbrev DigestFn := HasherRole → List Bool → HashValue

/-- Modelled from the spec: a hasher is a stateful accumulator; its state is
its role plus the input accumulated so far. -/
structure HasherState where
  role : HasherRole
  data : List Bool

/-- Modelled from the spec: a hasher is constructed fresh with empty state. -/
def HasherState.init (r : HasherRole) : HasherState := ⟨r, []⟩

/-- Modelled from the spec: `update` is append-only; the final digest depends
only on the concatenation of inputs, not on chunk boundaries. -/
def HasherState.update (s : HasherState) (input : List Bool) : HasherState :=
  ⟨s.role, s.data ++ input⟩

/-- Modelled from the spec: `finish` applies the role-separated digest to the
accumulated input. -/
def HasherState.finish (d : DigestFn) (s : HasherState) : HashValue :=
  d s.role s.data

/-- `MerkleTreeInternalNode<H>` (src/types/src/proof/mod.rs): a pair of child
digests; the phantom hasher role is an explicit argument of `hash`. -/
structure MerkleTreeInternalNode where
  left_child : HashValue
  right_child : HashValue

/-- `MerkleTreeInternalNode::new`. -/
def MerkleTreeInternalNode.new (left_child right_child : HashValue) :
    MerkleTreeInternalNode :=
  ⟨left_child, right_child⟩

/-- `MerkleTreeInternalNode::hash`: update with the left child, then the right
child, then finish. -/
def MerkleTreeInternalNode.hash (d : DigestFn) (role : HasherRole)
    (n : MerkleTreeInternalNode) : HashValue :=
  (((HasherState.init role).update n.left_child.bits).update
    n.right_child.bits).finish d

/-- `SparseMerkleInternalNode = MerkleTreeInternalNode<SparseMerkleInternalHasher>`:
the constructor. -/
def SparseMerkleInternalNode.new (left_child right_child : HashValue) :
    MerkleTreeInternalNode :=
  MerkleTreeInternalNode.new left_child right_child

/-- `SparseMerkleInternalNode`'s hash: the internal-node hash under the
`SparseMerkleInternal` role. -/
def SparseMerkleInternalNode.hash (d : DigestFn) (n : MerkleTreeInternalNode) :
    HashValue :=
  MerkleTreeInternalNode.hash d HasherRole.sparseMerkleInternal n

/-- `SparseMerkleLeafNode` (src/types/src/proof/mod.rs). -/
structure SparseMerkleLeafNode where
  key : HashValue
  value_hash : HashValue
deriving DecidableEq

/-- `SparseMerkleLeafNode::new`. -/
def SparseMerkleLeafNode.new (key value_hash : HashValue) : SparseMerkleLeafNode :=
  ⟨key, value_hash⟩

/-- `SparseMerkleLeafNode::hash`: update with the key, then the value hash,
then finish under the leaf-node role. -/
def SparseMerkleLeafNode.hash (d : DigestFn) (n : SparseMerkleLeafNode) : HashValue :=
  (((HasherState.init HasherRole.sparseMerkleLeafNode).update n.key.bits).update
    n.value_hash.bits).finish d

/-- `AccountStateBlob` (src/types/src/account_state_blob.rs): an owned byte
vector, represented by its bit content. -/
structure AccountStateBlob where
  blob : List Bool

/-- `AccountStateBlob::hash`: write the blob bytes, then finish under the
blob role. -/
def AccountStateBlob.hash (d : DigestFn) (b : AccountStateBlob) : HashValue :=
  ((HasherState.init HasherRole.accountStateBlob).update b.blob).finish d

/-- The logical error kinds of spec section 7 for the `ensure!`/`bail!` sites of
`SparseMerkleProof::verify` (src/types/src/proof/definition.rs). -/
inductive VerifyError
  | tooManySiblings
  | nonInclusionWhereInclusionExpected
  | valueHashMismatch
  | keyExistsInNonInclusionProof
  | invalidNonInclusionProof
  | rootMismatch
deriving DecidableEq

/-- The `ensure!` macro: check a decidable condition, short-circuit with the
given error kind when it fails. -/
def ensureE (c : Prop) [Decidable c] (e : VerifyError) : Except VerifyError Unit :=
  if c then Except.ok () else Except.error e

/-- `SparseMerkleProof` (src/types/src/proof/definition.rs): optional leaf
witness plus siblings ordered from the bottom level to the root level. -/
structure SparseMerkleProof where
  leaf : Option SparseMerkleLeafNode
  siblings : List HashValue

/-- `SparseMerkleProof::new`. -/
def SparseMerkleProof.new (leaf : Option SparseMerkleLeafNode)
    (siblings : List HashValue) : SparseMerkleProof :=
  ⟨leaf, siblings⟩

/-- The `current_hash` binding of `verify`:
`self.leaf.map_or(*SPARSE_MERKLE_PLACEHOLDER_HASH, |leaf| leaf.hash())`. -/
def SparseMerkleProof.current_hash (d : DigestFn) (self : SparseMerkleProof) :
    HashValue :=
  match self.leaf with
  | none => SPARSE_MERKLE_PLACEHOLDER_HASH
  | some leaf => leaf.hash d

/-- One step of the sibling walk of `verify`: if the key bit is set the current
node is the right child, otherwise the left child. -/
def siblingStep (d : DigestFn) (hash : HashValue) (p : HashValue × Bool) : HashValue :=
  if p.2 then SparseMerkleInternalNode.hash d (SparseMerkleInternalNode.new p.1 hash)
  else SparseMerkleInternalNode.hash d (SparseMerkleInternalNode.new hash p.1)

/-- The `actual_root_hash` binding of `verify`: fold the siblings (bottom-up)
zipped with `element_key.iter_bits().rev().skip(LENGTH_IN_BITS - siblings.len())`
starting from `current_hash`. -/
def SparseMerkleProof.actual_root_hash (d : DigestFn) (self : SparseMerkleProof)
    (element_key : HashValue) : HashValue :=
  (self.siblings.zip
      ((element_key.iter_bits).reverse.drop
        (HashValue.LENGTH_IN_BITS - self.siblings.length))).foldl
    (siblingStep d) (self.current_hash d)

/-- `SparseMerkleProof::verify` (src/types/src/proof/definition.rs, lines
59-143), with the `ensure!`/`bail!` sites mapped to the error kinds of spec
section 7. -/
def SparseMerkleProof.verify (d : DigestFn) (self : SparseMerkleProof)
    (expected_root_hash : HashValue) (element_key : HashValue)
    (element_blob : Option AccountStateBlob) : Except VerifyError Unit := do
  ensureE (self.siblings.length ≤ HashValue.LENGTH_IN_BITS)
    VerifyError.tooManySiblings
  match element_blob, self.leaf with
  | some blob, some leaf =>
      ensureE (element_key = leaf.key) VerifyError.nonInclusionWhereInclusionExpected
      ensureE (blob.hash d = leaf.value_hash) VerifyError.valueHashMismatch
  | some _, none => Except.error VerifyError.nonInclusionWhereInclusionExpected
  | none, some leaf =>
      ensureE (element_key ≠ leaf.key) VerifyError.keyExistsInNonInclusionProof
      ensureE (element_key.common_prefix_bits_len leaf.key ≥ self.siblings.length)
        VerifyError.invalidNonInclusionProof
  | none, none => pure ()
  ensureE (self.actual_root_hash d element_key = expected_root_hash)
    VerifyError.rootMismatch

/-- `AccumulatorConsistencyProof` (src/types/src/proof/definition.rs). -/
structure AccumulatorConsistencyProof where
  subtrees : List HashValue

/-- `AccumulatorConsistencyProof::new`. -/
def AccumulatorConsistencyProof.new (subtrees : List HashValue) :
    AccumulatorConsistencyProof :=
  ⟨subtrees⟩

/-- `SparseMerkleRangeProof` (src/types/src/proof/definition.rs). -/
structure SparseMerkleRangeProof where
  right_siblings : List HashValue

/-- `SparseMerkleRangeProof::new`. -/
def SparseMerkleRangeProof.new (right_siblings : List HashValue) :
    SparseMerkleRangeProof :=
  ⟨right_siblings⟩

/-- The sibling walk indexed by level: starting at `current` with level counter
`l`, the sibling consumed at level `l` is paired with `element_key.bit (idx l)`;
a set bit makes the current node the right child, a clear bit the left child. -/
def foldWithBitIdx (d : DigestFn) (element_key : HashValue) (idx : Nat → Nat) :
    List HashValue → Nat → HashValue → HashValue
  | [], _, current => current
  | s :: rest, l, current =>
      foldWithBitIdx d element_key idx rest (l + 1)
        (siblingStep d current (s, element_key.bit (idx l)))

/-- The length check and the leaf/claim consistency checks of `verify`, as a
boolean predicate (true exactly when `verify` reaches the sibling walk). -/
def SparseMerkleProof.checks_pass (d : DigestFn) (self : SparseMerkleProof)
    (element_key : HashValue) (element_blob : Option AccountStateBlob) : Bool :=
  decide (self.siblings.length ≤ HashValue.LENGTH_IN_BITS) &&
  match element_blob, self.leaf with
  | some blob, some leaf =>
      decide (element_key = leaf.key) && decide (blob.hash d = leaf.value_hash)
  | some _, none => false
  | none, some leaf =>
      decide (element_key ≠ leaf.key) &&
      decide (element_key.common_prefix_bits_len leaf.key ≥ self.siblings.length)
  | none, none => true

theorem ensureE_eq_ok {c : Prop} [Decidable c] (e : VerifyError) (h : c) :
    ensureE c e = Except.ok () := by
  simp [ensureE, h]

theorem ensureE_eq_error {c : Prop} [Decidable c] (e : VerifyError) (h : ¬ c) :
    ensureE c e = Except.error e := by
  simp [ensureE, h]

theorem SparseMerkleProof.verify_too_many (d : DigestFn) (p : SparseMerkleProof)
    (root key : HashValue) (blob : Option AccountStateBlob)
    (h : ¬ (p.siblings.length ≤ HashValue.LENGTH_IN_BITS)) :
    p.verify d root key blob = Except.error VerifyError.tooManySiblings := by
  unfold SparseMerkleProof.verify
  rw [ensureE_eq_error _ h]
  rfl

theorem SparseMerkleProof.verify_inclusion_no_leaf (d : DigestFn)
    (p : SparseMerkleProof) (root key : HashValue) (b : AccountStateBlob)
    (hlen : p.siblings.length ≤ HashValue.LENGTH_IN_BITS) (hl : p.leaf = none) :
    p.verify d root key (some b) =
      Except.error VerifyError.nonInclusionWhereInclusionExpected := by
  unfold SparseMerkleProof.verify
  rw [ensureE_eq_ok _ hlen, hl]
  rfl

theorem SparseMerkleProof.verify_inclusion_key_mismatch (d : DigestFn)
    (p : SparseMerkleProof) (root key : HashValue) (b : AccountStateBlob)
    (leaf : SparseMerkleLeafNode)
    (hlen : p.siblings.length ≤ HashValue.LENGTH_IN_BITS)
    (hl : p.leaf = some leaf) (hk : ¬ (key = leaf.key)) :
    p.verify d root key (some b) =
      Except.error VerifyError.nonInclusionWhereInclusionExpected := by
  unfold SparseMerkleProof.verify
  rw [ensureE_eq_ok _ hlen, hl]
  show Except.bind (ensureE (key = leaf.key) _) _ = _
  rw [ensureE_eq_error _ hk]
  rfl

theorem SparseMerkleProof.verify_inclusion_value_mismatch (d : DigestFn)
    (p : SparseMerkleProof) (root key : HashValue) (b : AccountStateBlob)
    (leaf : SparseMerkleLeafNode)
    (hlen : p.siblings.length ≤ HashValue.LENGTH_IN_BITS)
    (hl : p.leaf = some leaf) (hk : key = leaf.key)
    (hv : ¬ (b.hash d = leaf.value_hash)) :
    p.verify d root key (some b) = Except.error VerifyError.valueHashMismatch := by
  unfold SparseMerkleProof.verify
  rw [ensureE_eq_ok _ hlen, hl]
  show Except.bind (ensureE (key = leaf.key) _) _ = _
  rw [ensureE_eq_ok _ hk, ensureE_eq_error _ hv]
  rfl

theorem SparseMerkleProof.verify_noninclusion_key_exists (d : DigestFn)
    (p : SparseMerkleProof) (root key : HashValue) (leaf : SparseMerkleLeafNode)
    (hlen : p.siblings.length ≤ HashValue.LENGTH_IN_BITS)
    (hl : p.leaf = some leaf) (hk : key = leaf.key) :
    p.verify d root key none =
      Except.error VerifyError.keyExistsInNonInclusionProof := by
  unfold SparseMerkleProof.verify
  rw [ensureE_eq_ok _ hlen, hl]
  show Except.bind (ensureE (key ≠ leaf.key) _) _ = _
  rw [ensureE_eq_error _ (fun hne => hne hk)]
  rfl

theorem SparseMerkleProof.verify_noninclusion_shallow (d : DigestFn)
    (p : SparseMerkleProof) (root key : HashValue) (leaf : SparseMerkleLeafNode)
    (hlen : p.siblings.length ≤ HashValue.LENGTH_IN_BITS)
    (hl : p.leaf = some leaf) (hk : key ≠ leaf.key)
    (hc : ¬ (key.common_prefix_bits_len leaf.key ≥ p.siblings.length)) :
    p.verify d root key none =
      Except.error VerifyError.invalidNonInclusionProof := by
  unfold SparseMerkleProof.verify
  rw [ensureE_eq_ok _ hlen, hl]
  show Except.bind (ensureE (key ≠ leaf.key) _) _ = _
  rw [ensureE_eq_ok _ hk, ensureE_eq_error _ hc]
  rfl

theorem SparseMerkleProof.verify_eq_gate (d : DigestFn) (p : SparseMerkleProof)
    (root key : HashValue) (blob : Option AccountStateBlob)
    (h : p.checks_pass d key blob = true) :
    p.verify d root key blob =
      if p.actual_root_hash d key = root then Except.ok ()
      else Except.error VerifyError.rootMismatch := by
  unfold SparseMerkleProof.checks_pass at h
  rw [Bool.and_eq_true] at h
  have hlen := of_decide_eq_true h.1
  have h2 := h.2
  unfold SparseMerkleProof.verify
  rw [ensureE_eq_ok _ hlen]
  rcases blob with _ | b <;> rcases hl : p.leaf with _ | leaf <;> rw [hl] at h2
  · rfl
  · rw [Bool.and_eq_true] at h2
    show Except.bind (ensureE (key ≠ leaf.key) _) _ = _
    rw [ensureE_eq_ok _ (of_decide_eq_true h2.1),
      ensureE_eq_ok _ (of_decide_eq_true h2.2)]
    rfl
  · exact absurd h2 (by simp)
  · rw [Bool.and_eq_true] at h2
    show Except.bind (ensureE (key = leaf.key) _) _ = _
    rw [ensureE_eq_ok _ (of_decide_eq_true h2.1),
      ensureE_eq_ok _ (of_decide_eq_true h2.2)]
    rfl

theorem foldl_zip_eq_foldWithBitIdx (d : DigestFn) (key : HashValue)
    (idx : Nat → Nat) (sibs : List HashValue) :
    ∀ (bl : List Bool) (l0 : Nat) (c : HashValue),
      sibs.length ≤ bl.length →
      (∀ j, j < sibs.length → bl.getD j false = key.bit (idx (l0 + j))) →
      (sibs.zip bl).foldl (siblingStep d) c = foldWithBitIdx d key idx sibs l0 c := by
  induction sibs with
  | nil =>
    intro bl l0 c _ _
    simp [foldWithBitIdx]
  | cons s rest ih =>
    intro bl l0 c hlen hbits
    cases bl with
    | nil => simp at hlen
    | cons b bl =>
      have hb : b = key.bit (idx l0) := by simpa using hbits 0 (by simp)
      simp only [List.zip_cons_cons, List.foldl_cons]
      rw [foldWithBitIdx, hb]
      exact ih bl (l0 + 1) _ (by simpa using hlen) (fun j hj => by
        have h2 := hbits (j + 1) (by simpa using Nat.succ_lt_succ hj)
        simpa [show l0 + (j + 1) = l0 + 1 + j by omega] using h2)

theorem SparseMerkleProof.actual_root_hash_eq_foldWithBitIdx (d : DigestFn)
    (p : SparseMerkleProof) (key : HashValue)
    (h : p.siblings.length ≤ HashValue.LENGTH_IN_BITS) :
    p.actual_root_hash d key =
      foldWithBitIdx d key (fun l => p.siblings.length - 1 - l) p.siblings 0
        (p.current_hash d) := by
  have hlen256 : key.bits.length = 256 := key.len_eq
  have h256 : HashValue.LENGTH_IN_BITS = 256 := rfl
  unfold SparseMerkleProof.actual_root_hash
  apply foldl_zip_eq_foldWithBitIdx
  · simp [HashValue.iter_bits, hlen256, h256]
    omega
  · intro j hj
    rw [List.getD_eq_getElem?_getD, HashValue.iter_bits, List.getElem?_drop,
      List.getElem?_reverse (by simp [hlen256, h256]; omega)]
    rw [HashValue.bit, List.getD_eq_getElem?_getD]
    have hn : p.siblings.length ≤ 256 := by
      rw [h256] at h
      exact h
    have harith : key.bits.length - 1 - (HashValue.LENGTH_IN_BITS - p.siblings.length + j)
        = p.siblings.length - 1 - (0 + j) := by
      rw [hlen256, h256]
      omega
    rw [harith]

/-- A concrete hash value: bit 0 (the MSB) set, all others — including the
LSB, bit 255 — clear. -/
def hashMsbOnly : HashValue :=
  ⟨true :: List.replicate 255 false, by simp⟩

/-- A concrete hash value: all 256 bits set. -/
def hashAllOnes : HashValue :=
  ⟨List.replicate 256 true, by simp⟩

/-- A concrete executable digest function used to instantiate the parametric
theorems on explicit inputs: it returns the first 256 bits of the input, padded
with zeros.  (On internal-node pre-images it returns the left child.) -/
def takeDigest : DigestFn := fun _ data =>
  ⟨(data.take 256) ++ List.replicate (256 - (data.take 256).length) false, by
    simp only [List.length_append, List.length_take, List.length_replicate]
    omega⟩

instance : DecidableEq (Except VerifyError Unit) := fun a b =>
  match a, b with
  | Except.ok (), Except.ok () => isTrue rfl
  | Except.error e, Except.error f =>
      if h : e = f then isTrue (by rw [h]) else
        isFalse (fun hh => by cases hh; exact h rfl)
  | Except.ok _, Except.error _ => isFalse (fun hh => by cases hh)
  | Except.error _, Except.ok _ => isFalse (fun hh => by cases hh)

/-- **C1** (amended): for every `SparseMerkleProof` with `n = siblings.length`
that has passed the length and leaf/claim consistency checks, `verify`
reconstructs the root by starting from `leaf.hash()` when the leaf is present
(else the placeholder) and, for each level `l` from 0 (the deepest sibling) to
`n − 1`, consuming bit `n − 1 − l` of `element_key` — so the deepest sibling
`siblings[0]` pairs with bit `n − 1`, the last key bit consumed on the path
(the LSB of the key only when `n = 256`) — where a set bit makes the current
node the right child and a clear bit the left child; `verify` returns `Ok` iff
the final value equals `expected_root_hash` and otherwise fails with
`RootMismatch`. -/
theorem C1_sibling_walk (d : DigestFn) (p : SparseMerkleProof)
    (root key : HashValue) (blob : Option AccountStateBlob)
    (h : p.checks_pass d key blob = true) :
    p.verify d root key blob =
      if foldWithBitIdx d key (fun l => p.siblings.length - 1 - l) p.siblings 0
          (p.current_hash d) = root
      then Except.ok () else Except.error VerifyError.rootMismatch := by
  have hlen : p.siblings.length ≤ HashValue.LENGTH_IN_BITS := by
    unfold SparseMerkleProof.checks_pass at h
    rw [Bool.and_eq_true] at h
    exact of_decide_eq_true h.1
  rw [p.verify_eq_gate d root key blob h,
    p.actual_root_hash_eq_foldWithBitIdx d key hlen]

/-- Witness for C1: the amended theorem applied to a concrete passing proof. -/
theorem C1_sibling_walk_witness :
    (SparseMerkleProof.new none [hashAllOnes]).verify takeDigest hashAllOnes
        hashMsbOnly none =
      if foldWithBitIdx takeDigest hashMsbOnly
          (fun l => (SparseMerkleProof.new none [hashAllOnes]).siblings.length - 1 - l)
          (SparseMerkleProof.new none [hashAllOnes]).siblings 0
          ((SparseMerkleProof.new none [hashAllOnes]).current_hash takeDigest)
          = hashAllOnes
      then Except.ok () else Except.error VerifyError.rootMismatch :=
  C1_sibling_walk takeDigest (SparseMerkleProof.new none [hashAllOnes])
    hashAllOnes hashMsbOnly none (by decide)

/-- Counterexample to C1 as stated: a one-sibling non-inclusion proof that
passes all checks and verifies `Ok`, while the walk the claim describes —
pairing `siblings[0]` with `bit (255 − 0)`, the LSB of the key — does not
reproduce the expected root.  The code pairs `siblings[0]` with bit
`n − 1 = 0`, the MSB, not with the LSB. -/
theorem C1_counterexample :
    (SparseMerkleProof.new none [hashAllOnes]).checks_pass takeDigest
        hashMsbOnly none = true ∧
    (SparseMerkleProof.new none [hashAllOnes]).verify takeDigest hashAllOnes
        hashMsbOnly none = Except.ok () ∧
    foldWithBitIdx takeDigest hashMsbOnly (fun l => 255 - l)
        (SparseMerkleProof.new none [hashAllOnes]).siblings 0
        ((SparseMerkleProof.new none [hashAllOnes]).current_hash takeDigest)
      ≠ hashAllOnes := by
  refine ⟨by decide, by decide, by decide⟩

/-- **C2**: a proof with more than 256 siblings always fails with
`TooManySiblings`, regardless of the leaf, the expected root, the element key
and the element value; with at most 256 siblings this failure is never
raised. -/
theorem C2_too_many_siblings (d : DigestFn) (p : SparseMerkleProof)
    (root key : HashValue) (blob : Option AccountStateBlob) :
    (256 < p.siblings.length →
      p.verify d root key blob = Except.error VerifyError.tooManySiblings) ∧
    (p.siblings.length ≤ 256 →
      p.verify d root key blob ≠ Except.error VerifyError.tooManySiblings) := by
  constructor
  · intro hgt
    refine p.verify_too_many d root key blob ?_
    show ¬ (p.siblings.length ≤ 256)
    omega
  · intro hle heq
    have hlen : p.siblings.length ≤ HashValue.LENGTH_IN_BITS := hle
    rcases blob with _ | b <;> rcases hl : p.leaf with _ | leaf
    · have hcp : p.checks_pass d key none = true := by
        unfold SparseMerkleProof.checks_pass
        rw [hl]
        simp [hlen]
      rw [p.verify_eq_gate d root key none hcp] at heq
      split at heq <;> simp at heq
    · by_cases hk : key = leaf.key
      · rw [p.verify_noninclusion_key_exists d root key leaf hlen hl hk] at heq
        simp at heq
      · by_cases hc : key.common_prefix_bits_len leaf.key ≥ p.siblings.length
        · have hcp : p.checks_pass d key none = true := by
            unfold SparseMerkleProof.checks_pass
            rw [hl]
            simp [hlen, hk, hc]
          rw [p.verify_eq_gate d root key none hcp] at heq
          split at heq <;> simp at heq
        · rw [p.verify_noninclusion_shallow d root key leaf hlen hl hk hc] at heq
          simp at heq
    · rw [p.verify_inclusion_no_leaf d root key b hlen hl] at heq
      simp at heq
    · by_cases hk : key = leaf.key
      · by_cases hv : b.hash d = leaf.value_hash
        · have hcp : p.checks_pass d key (some b) = true := by
            unfold SparseMerkleProof.checks_pass
            rw [hl]
            simp [hlen, hk, hv]
          rw [p.verify_eq_gate d root key (some b) hcp] at heq
          split at heq <;> simp at heq
        · rw [p.verify_inclusion_value_mismatch d root key b leaf hlen hl hk hv] at heq
          simp at heq
      · rw [p.verify_inclusion_key_mismatch d root key b leaf hlen hl hk] at heq
        simp at heq

/-- Witness for C2: a 257-sibling proof fails with `TooManySiblings`; an
empty-sibling proof never does. -/
theorem C2_too_many_siblings_witness :
    (SparseMerkleProof.new none (List.replicate 257 hashAllOnes)).verify
        takeDigest SPARSE_MERKLE_PLACEHOLDER_HASH hashMsbOnly none =
      Except.error VerifyError.tooManySiblings ∧
    (SparseMerkleProof.new none []).verify takeDigest
        SPARSE_MERKLE_PLACEHOLDER_HASH hashMsbOnly none ≠
      Except.error VerifyError.tooManySiblings :=
  ⟨(C2_too_many_siblings takeDigest
      (SparseMerkleProof.new none (List.replicate 257 hashAllOnes))
      SPARSE_MERKLE_PLACEHOLDER_HASH hashMsbOnly none).1 (by decide),
   (C2_too_many_siblings takeDigest (SparseMerkleProof.new none [])
      SPARSE_MERKLE_PLACEHOLDER_HASH hashMsbOnly none).2 (by decide)⟩

/-- **C3**: for an inclusion claim (value present) that has passed the length
check: an absent leaf fails `NonInclusionWhereInclusionExpected`; a present
leaf with a different key fails `NonInclusionWhereInclusionExpected`; a
matching key with a different value hash fails `ValueHashMismatch`; and only
when both the key and the value hash match does verification proceed to the
sibling walk (the root comparison). -/
theorem C3_inclusion_branching (d : DigestFn) (p : SparseMerkleProof)
    (root key : HashValue) (b : AccountStateBlob)
    (hlen : p.siblings.length ≤ 256) :
    (p.leaf = none →
      p.verify d root key (some b) =
        Except.error VerifyError.nonInclusionWhereInclusionExpected) ∧
    (∀ leaf, p.leaf = some leaf → key ≠ leaf.key →
      p.verify d root key (some b) =
        Except.error VerifyError.nonInclusionWhereInclusionExpected) ∧
    (∀ leaf, p.leaf = some leaf → key = leaf.key → b.hash d ≠ leaf.value_hash →
      p.verify d root key (some b) = Except.error VerifyError.valueHashMismatch) ∧
    (∀ leaf, p.leaf = some leaf → key = leaf.key → b.hash d = leaf.value_hash →
      p.verify d root key (some b) =
        if p.actual_root_hash d key = root then Except.ok ()
        else Except.error VerifyError.rootMismatch) := by
  refine ⟨fun hl => p.verify_inclusion_no_leaf d root key b hlen hl,
    fun leaf hl hk => p.verify_inclusion_key_mismatch d root key b leaf hlen hl hk,
    fun leaf hl hk hv => p.verify_inclusion_value_mismatch d root key b leaf hlen hl hk hv,
    fun leaf hl hk hv => ?_⟩
  refine p.verify_eq_gate d root key (some b) ?_
  unfold SparseMerkleProof.checks_pass
  rw [hl]
  simp [HashValue.LENGTH_IN_BITS, hlen, hk, hv]

/-- Witness for C3: a concrete inclusion proof with matching key and value
hash proceeds to the root comparison. -/
theorem C3_inclusion_branching_witness :
    (SparseMerkleProof.new (some (SparseMerkleLeafNode.new hashMsbOnly hashAllOnes)) []).verify
        takeDigest hashAllOnes hashMsbOnly
        (some (AccountStateBlob.mk (List.replicate 256 true))) =
      if (SparseMerkleProof.new (some (SparseMerkleLeafNode.new hashMsbOnly hashAllOnes)) []).actual_root_hash
          takeDigest hashMsbOnly = hashAllOnes
      then Except.ok () else Except.error VerifyError.rootMismatch :=
  (C3_inclusion_branching takeDigest
      (SparseMerkleProof.new (some (SparseMerkleLeafNode.new hashMsbOnly hashAllOnes)) [])
      hashAllOnes hashMsbOnly (AccountStateBlob.mk (List.replicate 256 true))
      (by decide)).2.2.2
    (SparseMerkleLeafNode.new hashMsbOnly hashAllOnes) rfl rfl (by decide)

/-- **C4**: for a non-inclusion claim (value absent) on a proof with a present
leaf, after the length check: a leaf key equal to the queried key fails
`KeyExistsInNonInclusionProof`; a different leaf key whose common prefix with
the queried key is shorter than the siblings list fails
`InvalidNonInclusionProof`; otherwise verification proceeds to the sibling
walk (the root comparison). -/
theorem C4_noninclusion_branching (d : DigestFn) (p : SparseMerkleProof)
    (root key : HashValue) (hlen : p.siblings.length ≤ 256)
    (leaf : SparseMerkleLeafNode) (hl : p.leaf = some leaf) :
    (key = leaf.key →
      p.verify d root key none =
        Except.error VerifyError.keyExistsInNonInclusionProof) ∧
    (key ≠ leaf.key → key.common_prefix_bits_len leaf.key < p.siblings.length →
      p.verify d root key none =
        Except.error VerifyError.invalidNonInclusionProof) ∧
    (key ≠ leaf.key → key.common_prefix_bits_len leaf.key ≥ p.siblings.length →
      p.verify d root key none =
        if p.actual_root_hash d key = root then Except.ok ()
        else Except.error VerifyError.rootMismatch) := by
  refine ⟨fun hk => p.verify_noninclusion_key_exists d root key leaf hlen hl hk,
    fun hk hc => p.verify_noninclusion_shallow d root key leaf hlen hl hk (by omega),
    fun hk hc => ?_⟩
  refine p.verify_eq_gate d root key none ?_
  unfold SparseMerkleProof.checks_pass
  rw [hl]
  simp [HashValue.LENGTH_IN_BITS, hlen, hk, hc]

/-- Witness for C4: a concrete non-inclusion proof naming a different leaf key
with a long enough common prefix proceeds to the root comparison. -/
theorem C4_noninclusion_branching_witness :
    (SparseMerkleProof.new (some (SparseMerkleLeafNode.new hashAllOnes hashAllOnes)) []).verify
        takeDigest hashAllOnes hashMsbOnly none =
      if (SparseMerkleProof.new (some (SparseMerkleLeafNode.new hashAllOnes hashAllOnes)) []).actual_root_hash
          takeDigest hashMsbOnly = hashAllOnes
      then Except.ok () else Except.error VerifyError.rootMismatch :=
  (C4_noninclusion_branching takeDigest
      (SparseMerkleProof.new (some (SparseMerkleLeafNode.new hashAllOnes hashAllOnes)) [])
      hashAllOnes hashMsbOnly (by decide)
      (SparseMerkleLeafNode.new hashAllOnes hashAllOnes) rfl).2.2
    (by decide) (by decide)

/-- **C5**: no proof can verify both an inclusion claim and a non-inclusion
claim for the same key: for every proof, root, key and value blob, at least
one of `verify (Some v)` and `verify None` is not `Ok`. -/
theorem C5_exclusivity (d : DigestFn) (p : SparseMerkleProof)
    (root key : HashValue) (b : AccountStateBlob) :
    p.verify d root key (some b) ≠ Except.ok () ∨
    p.verify d root key none ≠ Except.ok () := by
  by_cases hlen : p.siblings.length ≤ HashValue.LENGTH_IN_BITS
  · rcases hl : p.leaf with _ | leaf
    · left
      rw [p.verify_inclusion_no_leaf d root key b hlen hl]
      simp
    · by_cases hk : key = leaf.key
      · right
        rw [p.verify_noninclusion_key_exists d root key leaf hlen hl hk]
        simp
      · left
        rw [p.verify_inclusion_key_mismatch d root key b leaf hlen hl hk]
        simp
  · left
    rw [p.verify_too_many d root key (some b) hlen]
    simp

/-- **C6**: with an empty siblings list, the empty proof verifies
non-inclusion against the placeholder root, and a proof naming a leaf with a
different key verifies non-inclusion against that leaf's own hash as root. -/
theorem C6_empty_siblings (d : DigestFn) (key : HashValue)
    (l : SparseMerkleLeafNode) (h : l.key ≠ key) :
    (SparseMerkleProof.new none []).verify d SPARSE_MERKLE_PLACEHOLDER_HASH
        key none = Except.ok () ∧
    (SparseMerkleProof.new (some l) []).verify d (l.hash d) key none =
      Except.ok () := by
  constructor
  · rw [SparseMerkleProof.verify_eq_gate d (SparseMerkleProof.new none [])
      SPARSE_MERKLE_PLACEHOLDER_HASH key none rfl]
    simp [SparseMerkleProof.actual_root_hash, SparseMerkleProof.current_hash,
      SparseMerkleProof.new]
  · have hcp : (SparseMerkleProof.new (some l) []).checks_pass d key none = true := by
      unfold SparseMerkleProof.checks_pass
      simp [SparseMerkleProof.new, Ne.symm h]
    rw [SparseMerkleProof.verify_eq_gate d (SparseMerkleProof.new (some l) [])
      (l.hash d) key none hcp]
    simp [SparseMerkleProof.actual_root_hash, SparseMerkleProof.current_hash,
      SparseMerkleProof.new]

/-- Witness for C6: concrete instances of both empty-sibling verifications. -/
theorem C6_empty_siblings_witness :
    (SparseMerkleProof.new none []).verify takeDigest
        SPARSE_MERKLE_PLACEHOLDER_HASH hashMsbOnly none = Except.ok () ∧
    (SparseMerkleProof.new (some (SparseMerkleLeafNode.new hashAllOnes hashAllOnes)) []).verify
        takeDigest ((SparseMerkleLeafNode.new hashAllOnes hashAllOnes).hash takeDigest)
        hashMsbOnly none = Except.ok () :=
  C6_empty_siblings takeDigest hashMsbOnly
    (SparseMerkleLeafNode.new hashAllOnes hashAllOnes) (by decide)

/-- **C7**: `SparseMerkleLeafNode(key, value_hash).hash()` is the leaf-role
domain-separated digest of the concatenation `key ‖ value_hash` in that fixed
order, and `MerkleTreeInternalNode(left, right).hash()` is the role-hasher
digest of `left ‖ right` in that fixed order — no length prefixes, and no
placeholder substitution for zero-valued children. -/
theorem C7_node_hash_preimages (d : DigestFn) (k v l r : HashValue)
    (role : HasherRole) :
    (SparseMerkleLeafNode.new k v).hash d =
      d HasherRole.sparseMerkleLeafNode (k.bits ++ v.bits) ∧
    (MerkleTreeInternalNode.new l r).hash d role = d role (l.bits ++ r.bits) := by
  constructor <;>
    simp [SparseMerkleLeafNode.hash, MerkleTreeInternalNode.hash,
      SparseMerkleLeafNode.new, MerkleTreeInternalNode.new, HasherState.init,
      HasherState.update, HasherState.finish]

/-- **C9**: the proof constructors validate nothing and the accessors return
the constructor arguments unchanged, for every leaf option and every siblings
vector (no length restriction at construction time). -/
theorem C9_constructors_accessors (leaf : Option SparseMerkleLeafNode)
    (siblings subtrees right_sibs : List HashValue) :
    (SparseMerkleProof.new leaf siblings).leaf = leaf ∧
    (SparseMerkleProof.new leaf siblings).siblings = siblings ∧
    (AccumulatorConsistencyProof.new subtrees).subtrees = subtrees ∧
    (SparseMerkleRangeProof.new right_sibs).right_siblings = right_sibs :=
  ⟨rfl, rfl, rfl, rfl⟩

/-- **C10**: `verify` is total — it always returns `Ok` or a typed error — and
once the length check has passed, the subtraction `256 − siblings.len()` does
not underflow (it is the exact complement of the length) and the zip of the
siblings with the remaining key bits consumes exactly `siblings.len()` bits. -/
theorem C10_verify_total (d : DigestFn) (p : SparseMerkleProof)
    (root key : HashValue) (blob : Option AccountStateBlob) :
    (p.verify d root key blob = Except.ok () ∨
      ∃ e, p.verify d root key blob = Except.error e) ∧
    (p.siblings.length ≤ HashValue.LENGTH_IN_BITS →
      (HashValue.LENGTH_IN_BITS - p.siblings.length) + p.siblings.length =
        HashValue.LENGTH_IN_BITS ∧
      (p.siblings.zip ((key.iter_bits).reverse.drop
          (HashValue.LENGTH_IN_BITS - p.siblings.length))).length =
        p.siblings.length) := by
  have h256 : HashValue.LENGTH_IN_BITS = 256 := rfl
  have hkey : key.bits.length = 256 := key.len_eq
  constructor
  · cases hv : p.verify d root key blob with
    | ok u =>
      left
      cases u
      rfl
    | error e =>
      right
      exact ⟨e, rfl⟩
  · intro hlen
    rw [h256] at hlen ⊢
    constructor
    · omega
    · simp [List.length_zip, HashValue.iter_bits, hkey]
      omega

/-- Witness for C10: the totality and exact-consumption facts at a concrete
proof with one sibling. -/
theorem C10_verify_total_witness :
    ((SparseMerkleProof.new none [hashAllOnes]).verify takeDigest
        SPARSE_MERKLE_PLACEHOLDER_HASH hashMsbOnly none = Except.ok () ∨
      ∃ e, (SparseMerkleProof.new none [hashAllOnes]).verify takeDigest
        SPARSE_MERKLE_PLACEHOLDER_HASH hashMsbOnly none = Except.error e) ∧
    ((HashValue.LENGTH_IN_BITS - (SparseMerkleProof.new none [hashAllOnes]).siblings.length)
        + (SparseMerkleProof.new none [hashAllOnes]).siblings.length =
      HashValue.LENGTH_IN_BITS ∧
      ((SparseMerkleProof.new none [hashAllOnes]).siblings.zip
          ((hashMsbOnly.iter_bits).reverse.drop
            (HashValue.LENGTH_IN_BITS -
              (SparseMerkleProof.new none [hashAllOnes]).siblings.length))).length =
        (SparseMerkleProof.new none [hashAllOnes]).siblings.length) :=
  ⟨(C10_verify_total takeDigest (SparseMerkleProof.new none [hashAllOnes])
      SPARSE_MERKLE_PLACEHOLDER_HASH hashMsbOnly none).1,
   (C10_verify_total takeDigest (SparseMerkleProof.new none [hashAllOnes])
      SPARSE_MERKLE_PLACEHOLDER_HASH hashMsbOnly none).2 (by decide)⟩

/-- Witness for C5: the exclusivity disjunction at a concrete proof. -/
theorem C5_exclusivity_witness :
    (SparseMerkleProof.new none []).verify takeDigest
        SPARSE_MERKLE_PLACEHOLDER_HASH hashMsbOnly
        (some (AccountStateBlob.mk [])) ≠ Except.ok () ∨
    (SparseMerkleProof.new none []).verify takeDigest
        SPARSE_MERKLE_PLACEHOLDER_HASH hashMsbOnly none ≠ Except.ok () :=
  C5_exclusivity takeDigest (SparseMerkleProof.new none [])
    SPARSE_MERKLE_PLACEHOLDER_HASH hashMsbOnly (AccountStateBlob.mk [])
